import Mathlib

/-!
Verification of the GPU Buffer abstraction of the arcade repository.

The repository ships the unit tests of the Buffer (tests/unit2/test_opengl_buffer.py)
but not the Buffer class itself, so the Buffer's data model and its operations
(`create`, `read`, `write`, `orphan`, `copy_from_buffer`) are modelled from the
spec (spec.md sections 3, 4 and 7).  Device memory is modelled as a list of
byte values; "uninitialized" device memory is modelled deterministically as
zero bytes (the spec leaves such content undefined, and no claim depends on
its value, only on its length).  Python's `int` arguments are modelled as
`Int` so that negative offsets and sizes are representable.  A fallible
operation returns `Except BufferError _`; a failing call produces no new
buffer value, matching the spec's rule that bounds checks precede any
transfer so a failing call commits nothing.
-/

/-- Modelled from the spec: the error taxonomy of section 7 (the Buffer class
itself is absent from the repository snapshot).  `InvalidArgument` reports
malformed creation/orphan parameters, `OutOfRange` reports offset/length
combinations exceeding a buffer's bounds, `UseAfterRelease` reports an
operation on a released Buffer. -/
inductive BufferError where
  | InvalidArgument
  | OutOfRange
  | UseAfterRelease
deriving DecidableEq, Repr

/-- Modelled from the spec: a Buffer owns one contiguous region of graphics
device memory (section 3).  The region is modelled by the list of byte values
it holds; the opaque `device_handle`, the immutable `usage_hint` and the
`owning_context` back-reference carry no byte-level semantics and are omitted
from the model, as no claim mentions them. -/
structure Buffer where
  content : List Nat
deriving DecidableEq, Repr

/-- Modelled from the spec: `size` is the current byte length of the backing
allocation (section 3). -/
def Buffer.size (b : Buffer) : Int :=
  (b.content.length : Int)

/-- The `len` bytes of `c` starting at position `offset` (a host-side view of
a device-memory range). -/
def sliceBytes (c : List Nat) (offset len : Nat) : List Nat :=
  (c.drop offset).take len

/-- `c` with the bytes starting at position `offset` overwritten by `d`
(an in-place device-memory store; callers check `offset + d.length ≤ c.length`
before using it). -/
def spliceBytes (c d : List Nat) (offset : Nat) : List Nat :=
  c.take offset ++ d ++ c.drop (offset + d.length)

/-- Modelled from the spec: Buffer creation (section 4.1 `create`, absent from
the repository snapshot).  If `data` yields a positive byte length, `size` is
the length of `data` and the content is copied in; otherwise if `reserve` is
positive, `size` is `reserve` with uninitialized (here: zero) content;
otherwise creation fails with `InvalidArgument` ("cannot create an empty
buffer"). -/
def createBuffer (data : Option (List Nat)) (reserve : Int) : Except BufferError Buffer :=
  match data with
  | some d =>
      if 0 < d.length then .ok ⟨d⟩
      else if 0 < reserve then .ok ⟨List.replicate reserve.toNat 0⟩
      else .error .InvalidArgument
  | none =>
      if 0 < reserve then .ok ⟨List.replicate reserve.toNat 0⟩
      else .error .InvalidArgument

/-- Modelled from the spec: `read(size, offset)` (section 4.1, absent from the
repository snapshot).  `size` defaults to the remaining bytes from `offset` to
the end of the buffer; the call fails with `OutOfRange` if `offset < 0`,
`size ≤ 0`, or `offset + size > buffer.size`, and otherwise returns exactly
`size` bytes starting at `offset` without mutating the buffer. -/
def Buffer.read (b : Buffer) (size : Option Int) (offset : Int) : Except BufferError (List Nat) :=
  let sz := size.getD (b.size - offset)
  if offset < 0 ∨ sz ≤ 0 ∨ b.size < offset + sz then .error .OutOfRange
  else .ok (sliceBytes b.content offset.toNat sz.toNat)

/-- Modelled from the spec: `write(data, offset)` (section 4.1, absent from the
repository snapshot).  Fails with `OutOfRange` if
`offset + len(data) > buffer.size` (writing never grows the buffer); a
negative `offset` is likewise out of range by the section 3 invariant that
every write range must lie within `[0, size)`.  On success the bytes
`[offset, offset + len(data))` are overwritten. -/
def Buffer.write (b : Buffer) (data : List Nat) (offset : Int) : Except BufferError Buffer :=
  if offset < 0 ∨ b.size < offset + (data.length : Int) then .error .OutOfRange
  else .ok ⟨spliceBytes b.content data offset.toNat⟩

/-- Modelled from the spec: `orphan(size, double)` (section 4.1, absent from
the repository snapshot).  The new size is `size` if given, else
`buffer.size * 2` if `double` is true, else `buffer.size` unchanged; the call
fails with `InvalidArgument` if both `size` and `double` are given and they
disagree, or if the resolved size is not positive.  On success the buffer
holds a fresh uninitialized (here: zero) allocation of the resolved size. -/
def Buffer.orphan (b : Buffer) (size : Option Int) (double : Bool) : Except BufferError Buffer :=
  match size with
  | some s =>
      if double ∧ s ≠ 2 * b.size then .error .InvalidArgument
      else if s ≤ 0 then .error .InvalidArgument
      else .ok ⟨List.replicate s.toNat 0⟩
  | none =>
      let s := if double then 2 * b.size else b.size
      if s ≤ 0 then .error .InvalidArgument
      else .ok ⟨List.replicate s.toNat 0⟩

/-- Modelled from the spec: `copy_from_buffer(source, size, offset,
source_offset)` (section 4.1, absent from the repository snapshot).  `size`
defaults to the smaller of `source.size - source_offset` and
`self.size - offset`; the call fails with `OutOfRange` if
`source_offset + size > source.size` or `offset + size > self.size`, each
bound checked on its own, and negative offsets are out of range by the
section 3 invariant.  Checks precede the transfer, so a failing call commits
no partial copy. -/
def Buffer.copy_from_buffer (b : Buffer) (source : Buffer) (size : Option Int)
    (offset source_offset : Int) : Except BufferError Buffer :=
  let sz := size.getD (min (source.size - source_offset) (b.size - offset))
  if offset < 0 ∨ source_offset < 0 then .error .OutOfRange
  else if source.size < source_offset + sz then .error .OutOfRange
  else if b.size < offset + sz then .error .OutOfRange
  else .ok ⟨spliceBytes b.content (sliceBytes source.content source_offset.toNat sz.toNat) offset.toNat⟩

/-- The buffer value visible to the caller after a fallible mutating call: the
new buffer on success, the unchanged original on failure (the spec's checks
precede any transfer, so a failing call leaves the buffer as it was). -/
def afterOp (b : Buffer) (r : Except BufferError Buffer) : Buffer :=
  match r with
  | .ok b2 => b2
  | .error _ => b

/-- Modelled from the spec: a contiguous buffer-protocol object as seen at the
API boundary (section 9): the only capability the Buffer uses is the object's
contiguous byte serialization (`tobytes`). -/
structure ByteSource where
  tobytes : List Nat
deriving DecidableEq, Repr

/-- Modelled from the spec: Buffer creation from a buffer-protocol object —
the object is converted to its byte serialization once at the API edge
(section 9) and creation proceeds on those bytes. -/
def createBufferFromObject (obj : ByteSource) (reserve : Int) : Except BufferError Buffer :=
  createBuffer (some obj.tobytes) reserve

/-- The eleven bytes of the test fixture `b'Hello world'`. -/
def helloBytes : List Nat :=
  [72, 101, 108, 108, 111, 32, 119, 111, 114, 108, 100]

/-- A Buffer holding `b'Hello world'`, as created by the unit tests. -/
def bHello : Buffer :=
  ⟨helloBytes⟩

/-- A Buffer created with `reserve=20`, as in the unit test `test_copy`
(uninitialized content modelled as zero bytes). -/
def bSource : Buffer :=
  ⟨List.replicate 20 0⟩

/-- The sixteen bytes of `array('f', [1, 2, 3, 4]).tobytes()`: the IEEE-754
little-endian serialization of the four single-precision floats used by the
unit test `test_write_bufferprotocol`. -/
def floatArrayBytes : List Nat :=
  [0, 0, 128, 63, 0, 0, 0, 64, 0, 0, 64, 64, 0, 0, 128, 64]

/-! ### Helper lemmas about splicing and slicing -/

theorem spliceBytes_length {l d : List Nat} {o : Nat} (h : o + d.length ≤ l.length) :
    (spliceBytes l d o).length = l.length := by
  simp only [spliceBytes, List.length_append, List.length_take, List.length_drop]
  omega

theorem spliceBytes_nil (l : List Nat) (o : Nat) : spliceBytes l [] o = l := by
  simp [spliceBytes]

theorem sliceBytes_length {l : List Nat} {o n : Nat} (h : o + n ≤ l.length) :
    (sliceBytes l o n).length = n := by
  simp only [sliceBytes, List.length_take, List.length_drop]
  omega

theorem sliceBytes_length_le (l : List Nat) (o n : Nat) :
    (sliceBytes l o n).length ≤ n := by
  simp only [sliceBytes, List.length_take]
  omega

theorem sliceBytes_spliceBytes {l d : List Nat} {o : Nat} (h : o + d.length ≤ l.length) :
    sliceBytes (spliceBytes l d o) o d.length = d := by
  have hlen : (l.take o).length = o := by
    simp only [List.length_take]
    omega
  simp only [sliceBytes, spliceBytes, List.append_assoc]
  rw [List.drop_left' hlen, List.take_left' rfl]

theorem spliceBytes_getElem_left {l d : List Nat} {o i : Nat} (hi : i < o) (ho : o ≤ l.length) :
    (spliceBytes l d o)[i]? = l[i]? := by
  have hlen : (l.take o).length = o := by
    simp only [List.length_take]
    omega
  simp only [spliceBytes, List.append_assoc]
  rw [List.getElem?_append_left (by omega), List.getElem?_take_of_lt hi]

theorem spliceBytes_getElem_mid {l d : List Nat} {o i : Nat} (h1 : o ≤ i)
    (h2 : i < o + d.length) (ho : o ≤ l.length) :
    (spliceBytes l d o)[i]? = d[i - o]? := by
  have hlen : (l.take o).length = o := by
    simp only [List.length_take]
    omega
  simp only [spliceBytes, List.append_assoc]
  rw [List.getElem?_append_right (by omega), hlen,
    List.getElem?_append_left (by omega)]

theorem spliceBytes_getElem_right {l d : List Nat} {o i : Nat} (h1 : o + d.length ≤ i)
    (ho : o ≤ l.length) :
    (spliceBytes l d o)[i]? = l[i]? := by
  have hlen : (l.take o).length = o := by
    simp only [List.length_take]
    omega
  simp only [spliceBytes, List.append_assoc]
  rw [List.getElem?_append_right (by omega), hlen,
    List.getElem?_append_right (by omega), List.getElem?_drop]
  congr 1
  omega

theorem sliceBytes_getElem {l : List Nat} {o n i : Nat} (hi : i < n) :
    (sliceBytes l o n)[i]? = l[o + i]? := by
  simp only [sliceBytes]
  rw [List.getElem?_take_of_lt hi, List.getElem?_drop]

/-! ### Helper lemmas about the operations -/

theorem read_all {b : Buffer} (h : 0 < b.content.length) :
    b.read none 0 = Except.ok b.content := by
  simp only [Buffer.read, Option.getD_none]
  rw [if_neg (by simp only [Buffer.size]; omega)]
  simp [sliceBytes, Buffer.size]

theorem read_oob_error {b : Buffer} {s o : Int} (h : o < 0 ∨ s ≤ 0 ∨ b.size < o + s) :
    b.read (some s) o = Except.error BufferError.OutOfRange := by
  simp only [Buffer.read, Option.getD_some]
  rw [if_pos (by omega)]

theorem copy_oob_error {b src : Buffer} {sz o so : Int}
    (h : src.size < so + sz ∨ b.size < o + sz) :
    b.copy_from_buffer src (some sz) o so = Except.error BufferError.OutOfRange := by
  simp only [Buffer.copy_from_buffer, Option.getD_some]
  by_cases hneg : o < 0 ∨ so < 0
  · rw [if_pos hneg]
  · rw [if_neg hneg]
    by_cases hsrc : src.size < so + sz
    · rw [if_pos hsrc]
    · rw [if_neg hsrc]
      rw [if_pos (by omega)]

theorem copy_from_buffer_ok_inv {b src : Buffer} {s : Option Int} {o so : Int} {b2 : Buffer}
    (h : b.copy_from_buffer src s o so = Except.ok b2) :
    0 ≤ o ∧ 0 ≤ so ∧ so + s.getD (min (src.size - so) (b.size - o)) ≤ src.size ∧
    o + s.getD (min (src.size - so) (b.size - o)) ≤ b.size ∧
    b2 = ⟨spliceBytes b.content
      (sliceBytes src.content so.toNat (s.getD (min (src.size - so) (b.size - o))).toNat)
      o.toNat⟩ := by
  simp only [Buffer.copy_from_buffer] at h
  by_cases hneg : o < 0 ∨ so < 0
  · rw [if_pos hneg] at h
    exact Except.noConfusion h
  · rw [if_neg hneg] at h
    by_cases hsrc : src.size < so + s.getD (min (src.size - so) (b.size - o))
    · rw [if_pos hsrc] at h
      exact Except.noConfusion h
    · rw [if_neg hsrc] at h
      by_cases hdst : b.size < o + s.getD (min (src.size - so) (b.size - o))
      · rw [if_pos hdst] at h
        exact Except.noConfusion h
      · rw [if_neg hdst] at h
        exact ⟨by omega, by omega, by omega, by omega, (Except.ok.inj h).symm⟩

theorem copy_from_buffer_ok_length {b src : Buffer} {s : Option Int} {o so : Int} {b2 : Buffer}
    (h : b.copy_from_buffer src s o so = Except.ok b2) :
    b2.content.length = b.content.length := by
  obtain ⟨h0, h2, h3, h4, hb⟩ := copy_from_buffer_ok_inv h
  subst hb
  by_cases hsz : (s.getD (min (src.size - so) (b.size - o))).toNat = 0
  · show (spliceBytes _ _ _).length = _
    rw [hsz]
    simp [sliceBytes, spliceBytes_nil]
  · apply spliceBytes_length
    have hle := sliceBytes_length_le src.content so.toNat
      (s.getD (min (src.size - so) (b.size - o))).toNat
    simp only [Buffer.size] at *
    omega

/-! ### Claim theorems -/

/-- C1: For every Buffer successfully created from a bytes value `data` of
length L (with `reserve` left at its default), the Buffer's `size` equals L
and a subsequent `read()` with no arguments returns exactly `data`. -/
theorem C1_create_from_data (d : List Nat) (b : Buffer)
    (h : createBuffer (some d) 0 = Except.ok b) :
    b.size = (d.length : Int) ∧ b.read none 0 = Except.ok d := by
  have hd : 0 < d.length := by
    by_contra hd
    simp [createBuffer, hd] at h
  have hb : b = ⟨d⟩ := by
    simp [createBuffer, hd] at h
    exact h.symm
  subst hb
  refine ⟨rfl, ?_⟩
  simp only [Buffer.read, Option.getD_none]
  rw [if_neg (by simp only [Buffer.size]; omega)]
  simp [sliceBytes, Buffer.size]

/-- Witness for C1 at the test fixture `b'Hello world'`. -/
theorem C1_witness :
    bHello.size = (helloBytes.length : Int) ∧ bHello.read none 0 = Except.ok helloBytes :=
  C1_create_from_data helloBytes bHello rfl

/-- C2: For every Buffer and every call `read(size, offset)` with `offset < 0`,
or `size ≤ 0`, or `offset + size > buffer.size`, the call fails with an
`OutOfRange` error and returns no bytes. -/
theorem C2_read_out_of_range (b : Buffer) (s o : Int)
    (h : o < 0 ∨ s ≤ 0 ∨ o + s > b.size) :
    b.read (some s) o = Except.error BufferError.OutOfRange := by
  simp only [Buffer.read, Option.getD_some]
  rw [if_pos (by omega)]

/-- Witness for C2: reading 12 bytes from the 11-byte `b'Hello world'` buffer
fails, as in the unit test. -/
theorem C2_witness :
    bHello.read (some 12) 0 = Except.error BufferError.OutOfRange :=
  C2_read_out_of_range bHello 12 0 (by decide)

/-- C3 counterexample: the claim quantifies over every byte string, but for the
empty byte string at offset 0 (which satisfies `offset + len(data) ≤ size`)
the write succeeds and the subsequent `read(0, 0)` fails with `OutOfRange`
(the spec's own read rule rejects `size ≤ 0`), so the round-trip does not
return the data. -/
theorem C3_counterexample :
    ((0:Int) + (([] : List Nat).length : Int) ≤ bHello.size) ∧
    (bHello.write [] 0).bind (fun b2 => b2.read (some ((([] : List Nat).length : Nat) : Int)) 0)
      = Except.error BufferError.OutOfRange ∧
    (bHello.write [] 0).bind (fun b2 => b2.read (some ((([] : List Nat).length : Nat) : Int)) 0)
      ≠ Except.ok ([] : List Nat) := by
  refine ⟨by decide, rfl, ?_⟩
  intro hcontra
  exact Except.noConfusion hcontra

/-- C3 (amended): for every Buffer, every nonempty byte string `data`, and
every nonnegative offset with `offset + len(data) ≤ buffer.size`, performing
`write(data, offset)` and then `read(len(data), offset)` returns exactly
`data`. -/
theorem C3_write_read_roundtrip (b : Buffer) (d : List Nat) (o : Int)
    (hd : d ≠ []) (h0 : 0 ≤ o) (h : o + (d.length : Int) ≤ b.size) :
    ∃ b2, b.write d o = Except.ok b2 ∧
      b2.read (some (d.length : Int)) o = Except.ok d := by
  have hfit : o.toNat + d.length ≤ b.content.length := by
    simp only [Buffer.size] at h
    omega
  have hdl : 0 < d.length := List.length_pos.mpr hd
  refine ⟨⟨spliceBytes b.content d o.toNat⟩, ?_, ?_⟩
  · simp only [Buffer.write]
    rw [if_neg (by omega)]
  · have hlen : (spliceBytes b.content d o.toNat).length = b.content.length :=
      spliceBytes_length hfit
    simp only [Buffer.read, Option.getD_some]
    rw [if_neg (by simp only [Buffer.size, hlen]; omega)]
    rw [Int.toNat_natCast, sliceBytes_spliceBytes hfit]

/-- Witness for C3 (amended): writing one byte at offset 0 of the test buffer
and reading it back. -/
theorem C3_witness :
    ∃ b2, bHello.write [84] 0 = Except.ok b2 ∧
      b2.read (some ((([84] : List Nat).length : Nat) : Int)) 0 = Except.ok [84] :=
  C3_write_read_roundtrip bHello [84] 0 (by decide) (by decide) (by decide)

/-- C4: whenever `orphan(size, double)` succeeds, the buffer's new `size`
equals the resolved size: the argument `size` when given; else
`buffer.size * 2` when `double` is true; else `buffer.size` unchanged. -/
theorem C4_orphan_size (b : Buffer) (s : Option Int) (dbl : Bool) (b2 : Buffer)
    (h : b.orphan s dbl = Except.ok b2) :
    b2.size = s.getD (if dbl then 2 * b.size else b.size) := by
  cases s with
  | some v =>
      simp only [Buffer.orphan] at h
      by_cases h1 : (dbl = true) ∧ v ≠ 2 * b.size
      · rw [if_pos h1] at h
        exact Except.noConfusion h
      · rw [if_neg h1] at h
        by_cases h2 : v ≤ 0
        · rw [if_pos h2] at h
          exact Except.noConfusion h
        · rw [if_neg h2] at h
          have hb := (Except.ok.inj h).symm
          subst hb
          simp only [Option.getD_some, Buffer.size, List.length_replicate]
          omega
  | none =>
      simp only [Buffer.orphan] at h
      by_cases h2 : (if dbl then 2 * b.size else b.size) ≤ 0
      · rw [if_pos h2] at h
        exact Except.noConfusion h
      · rw [if_neg h2] at h
        have hb := (Except.ok.inj h).symm
        subst hb
        simp only [Option.getD_none, Buffer.size, List.length_replicate]
        omega

/-- Witness for C4: `orphan(size=20)` on the 11-byte test buffer yields a
20-byte buffer, as in the unit test. -/
theorem C4_witness :
    (Buffer.mk (List.replicate 20 0)).size
      = (some (20:Int)).getD (if false then 2 * bHello.size else bHello.size) :=
  C4_orphan_size bHello (some 20) false ⟨List.replicate 20 0⟩ rfl

/-- C5: `copy_from_buffer(source, size, offset, source_offset)` fails with
`OutOfRange` when `source_offset + size > source.size` or when
`offset + size > self.size`, each bound sufficing on its own, and a failing
call commits no partial copy: the caller's buffer value after the failed call
is exactly the original, so the destination region is unmodified. -/
theorem C5_copy_out_of_range (b src : Buffer) (sz o so : Int)
    (h : so + sz > src.size ∨ o + sz > b.size) :
    b.copy_from_buffer src (some sz) o so = Except.error BufferError.OutOfRange ∧
    afterOp b (b.copy_from_buffer src (some sz) o so) = b := by
  have herr : b.copy_from_buffer src (some sz) o so = Except.error BufferError.OutOfRange :=
    copy_oob_error (by omega)
  refine ⟨herr, ?_⟩
  rw [herr]
  rfl

/-- Witness for C5 at the unit test's inputs: an 11-byte buffer, a 20-byte
source, and `size=10, source_offset=15` (reading past the end of the
source). -/
theorem C5_witness :
    bHello.copy_from_buffer bSource (some 10) 0 15 = Except.error BufferError.OutOfRange ∧
    afterOp bHello (bHello.copy_from_buffer bSource (some 10) 0 15) = bHello :=
  C5_copy_out_of_range bHello bSource 10 0 15 (by decide)

/-- C6: when `size` is omitted and the offsets lie within their buffers,
`copy_from_buffer(source, offset=o, source_offset=so)` succeeds and copies
exactly `min (source.size - so) (self.size - o)` bytes: positions
`[o, o + min)` of the result hold the source bytes `[so, so + min)`, every
other position is unchanged, and the destination size is unchanged. -/
theorem C6_copy_default_size (b src : Buffer) (o so : Int)
    (h0 : 0 ≤ o) (h1 : o ≤ b.size) (h2 : 0 ≤ so) (h3 : so ≤ src.size) :
    ∃ b2, b.copy_from_buffer src none o so = Except.ok b2 ∧
      b2.content.length = b.content.length ∧
      (∀ i : Nat, i < (min (src.size - so) (b.size - o)).toNat →
        b2.content[o.toNat + i]? = src.content[so.toNat + i]?) ∧
      (∀ i : Nat, i < o.toNat ∨ o.toNat + (min (src.size - so) (b.size - o)).toNat ≤ i →
        b2.content[i]? = b.content[i]?) := by
  have hbl : b.size = (b.content.length : Int) := rfl
  have hsl : src.size = (src.content.length : Int) := rfl
  have hslice_fit : so.toNat + (min (src.size - so) (b.size - o)).toNat ≤ src.content.length := by
    omega
  have hfit : o.toNat + (min (src.size - so) (b.size - o)).toNat ≤ b.content.length := by
    omega
  have hslice_len : (sliceBytes src.content so.toNat
      (min (src.size - so) (b.size - o)).toNat).length
      = (min (src.size - so) (b.size - o)).toNat := sliceBytes_length hslice_fit
  refine ⟨⟨spliceBytes b.content
      (sliceBytes src.content so.toNat (min (src.size - so) (b.size - o)).toNat) o.toNat⟩,
      ?_, ?_, ?_, ?_⟩
  · simp only [Buffer.copy_from_buffer, Option.getD_none]
    rw [if_neg (by omega), if_neg (by omega), if_neg (by omega)]
  · exact spliceBytes_length (by rw [hslice_len]; exact hfit)
  · intro i hi
    show (spliceBytes _ _ _)[o.toNat + i]? = _
    rw [spliceBytes_getElem_mid (Nat.le_add_right _ _) (by rw [hslice_len]; omega) (by omega),
      Nat.add_sub_cancel_left, sliceBytes_getElem hi]
  · intro i hi
    rcases hi with hlt | hge
    · exact spliceBytes_getElem_left hlt (by omega)
    · exact spliceBytes_getElem_right (by rw [hslice_len]; omega) (by omega)

/-- Witness for C6: copying with `size` omitted from the 20-byte source into
the 11-byte `b'Hello world'` buffer at offsets 0 copies `min 20 11 = 11`
bytes. -/
theorem C6_witness :
    ∃ b2, bHello.copy_from_buffer bSource none 0 0 = Except.ok b2 ∧
      b2.content.length = bHello.content.length ∧
      (∀ i : Nat, i < (min (bSource.size - 0) (bHello.size - 0)).toNat →
        b2.content[(0:Int).toNat + i]? = bSource.content[(0:Int).toNat + i]?) ∧
      (∀ i : Nat, i < (0:Int).toNat ∨
          (0:Int).toNat + (min (bSource.size - 0) (bHello.size - 0)).toNat ≤ i →
        b2.content[i]? = bHello.content[i]?) :=
  C6_copy_default_size bHello bSource 0 0 (by decide) (by decide) (by decide) (by decide)

/-- C7: Buffer creation with neither `data` nor `reserve` yielding a positive
byte length fails with an `InvalidArgument` error and produces no Buffer. -/
theorem C7_create_empty_fails (data : Option (List Nat)) (reserve : Int)
    (hd : ∀ d, data = some d → d.length = 0) (hr : reserve ≤ 0) :
    createBuffer data reserve = Except.error BufferError.InvalidArgument := by
  cases data with
  | none =>
      simp only [createBuffer]
      rw [if_neg (by omega)]
  | some d =>
      have hd0 : d.length = 0 := hd d rfl
      simp only [createBuffer]
      rw [if_neg (by omega), if_neg (by omega)]

/-- Witness for C7: the context's buffer factory called with no arguments
(no data, default reserve 0), as in the unit test `test_create_empty`. -/
theorem C7_witness :
    createBuffer none 0 = Except.error BufferError.InvalidArgument :=
  C7_create_empty_fails none 0 (fun d h => Option.noConfusion h) (by decide)

/-- C8: every operation preserves the invariant `size > 0`: a successfully
created Buffer has positive `size`, and every successful `write`, `orphan`
and `copy_from_buffer` keeps `size` strictly positive. -/
theorem C8_size_positive :
    (∀ (data : Option (List Nat)) (reserve : Int) (b : Buffer),
      createBuffer data reserve = Except.ok b → 0 < b.size) ∧
    (∀ (b : Buffer) (d : List Nat) (o : Int) (b2 : Buffer),
      0 < b.size → b.write d o = Except.ok b2 → 0 < b2.size) ∧
    (∀ (b : Buffer) (s : Option Int) (dbl : Bool) (b2 : Buffer),
      0 < b.size → b.orphan s dbl = Except.ok b2 → 0 < b2.size) ∧
    (∀ (b src : Buffer) (s : Option Int) (o so : Int) (b2 : Buffer),
      0 < b.size → b.copy_from_buffer src s o so = Except.ok b2 → 0 < b2.size) := by
  refine ⟨?_, ?_, ?_, ?_⟩
  · intro data reserve b h
    cases data with
    | none =>
        simp only [createBuffer] at h
        by_cases hr : 0 < reserve
        · rw [if_pos hr] at h
          rw [← (Except.ok.inj h)]
          simp only [Buffer.size, List.length_replicate]
          omega
        · rw [if_neg hr] at h
          exact Except.noConfusion h
    | some d =>
        simp only [createBuffer] at h
        by_cases hdl : 0 < d.length
        · rw [if_pos hdl] at h
          rw [← (Except.ok.inj h)]
          simp only [Buffer.size]
          omega
        · rw [if_neg hdl] at h
          by_cases hr : 0 < reserve
          · rw [if_pos hr] at h
            rw [← (Except.ok.inj h)]
            simp only [Buffer.size, List.length_replicate]
            omega
          · rw [if_neg hr] at h
            exact Except.noConfusion h
  · intro b d o b2 hpos h
    simp only [Buffer.write] at h
    by_cases hc : o < 0 ∨ b.size < o + (d.length : Int)
    · rw [if_pos hc] at h
      exact Except.noConfusion h
    · rw [if_neg hc] at h
      rw [← (Except.ok.inj h)]
      simp only [Buffer.size] at *
      rw [spliceBytes_length (by omega)]
      omega
  · intro b s dbl b2 hpos h
    cases s with
    | some v =>
        simp only [Buffer.orphan] at h
        by_cases h1 : (dbl = true) ∧ v ≠ 2 * b.size
        · rw [if_pos h1] at h
          exact Except.noConfusion h
        · rw [if_neg h1] at h
          by_cases hv : v ≤ 0
          · rw [if_pos hv] at h
            exact Except.noConfusion h
          · rw [if_neg hv] at h
            rw [← (Except.ok.inj h)]
            simp only [Buffer.size, List.length_replicate]
            omega
    | none =>
        simp only [Buffer.orphan] at h
        by_cases hv : (if dbl then 2 * b.size else b.size) ≤ 0
        · rw [if_pos hv] at h
          exact Except.noConfusion h
        · rw [if_neg hv] at h
          rw [← (Except.ok.inj h)]
          simp only [Buffer.size, List.length_replicate] at hv hpos ⊢
          rcases Bool.dichotomy dbl with hb | hb <;> subst hb <;> simp at hv ⊢ <;> omega
  · intro b src s o so b2 hpos h
    have hlen := copy_from_buffer_ok_length h
    simp only [Buffer.size] at *
    omega

/-- Witness for C8: each conjunct applied at the unit tests' inputs. -/
theorem C8_witness :
    0 < bHello.size ∧ 0 < bSource.size :=
  ⟨C8_size_positive.1 (some helloBytes) 0 bHello rfl,
   C8_size_positive.1 none 20 bSource rfl⟩

/-- C9: Buffer creation accepts any contiguous buffer-protocol object as
`data` (modelled by its byte serialization, converted once at the API edge):
for every such object with a nonempty serialization, creation succeeds, the
Buffer's `size` equals the object's total byte length, and `read()` returns
the object's byte serialization. -/
theorem C9_buffer_protocol (obj : ByteSource) (hobj : obj.tobytes ≠ []) :
    ∃ b, createBufferFromObject obj 0 = Except.ok b ∧
      b.size = (obj.tobytes.length : Int) ∧ b.read none 0 = Except.ok obj.tobytes := by
  have hl : 0 < obj.tobytes.length := List.length_pos.mpr hobj
  refine ⟨⟨obj.tobytes⟩, ?_, rfl, read_all hl⟩
  simp only [createBufferFromObject, createBuffer]
  rw [if_pos hl]

/-- Witness for C9 at the unit test's input `array('f', [1, 2, 3, 4])`, whose
byte serialization is the sixteen bytes of `floatArrayBytes`. -/
theorem C9_witness :
    ∃ b, createBufferFromObject ⟨floatArrayBytes⟩ 0 = Except.ok b ∧
      b.size = (floatArrayBytes.length : Int) ∧
      b.read none 0 = Except.ok floatArrayBytes :=
  C9_buffer_protocol ⟨floatArrayBytes⟩ (by decide)

/-- C10: a failed operation does not change the Buffer's state: a `read` with
a bounds error returns only the error, and after a `copy_from_buffer` that
fails its bounds check the caller's buffer value is exactly the original —
same `size`, same contents — so subsequent valid operations behave as if the
failed call had never been made. -/
theorem C10_failed_call_preserves_state (b src : Buffer) (rs ro cs co cso : Int)
    (hr : ro < 0 ∨ rs ≤ 0 ∨ ro + rs > b.size)
    (hc : cso + cs > src.size ∨ co + cs > b.size) :
    b.read (some rs) ro = Except.error BufferError.OutOfRange ∧
    afterOp b (b.copy_from_buffer src (some cs) co cso) = b ∧
    (afterOp b (b.copy_from_buffer src (some cs) co cso)).size = b.size ∧
    (afterOp b (b.copy_from_buffer src (some cs) co cso)).content = b.content := by
  have herr : b.copy_from_buffer src (some cs) co cso = Except.error BufferError.OutOfRange :=
    copy_oob_error (by omega)
  rw [herr]
  exact ⟨read_oob_error (by omega), rfl, rfl, rfl⟩

/-- Witness for C10 at the unit tests' failing inputs: `read(size=12)` on the
11-byte buffer and `copy_from_buffer(source, size=10, source_offset=15)` with
the 20-byte source. -/
theorem C10_witness :
    bHello.read (some 12) 0 = Except.error BufferError.OutOfRange ∧
    afterOp bHello (bHello.copy_from_buffer bSource (some 10) 0 15) = bHello ∧
    (afterOp bHello (bHello.copy_from_buffer bSource (some 10) 0 15)).size = bHello.size ∧
    (afterOp bHello (bHello.copy_from_buffer bSource (some 10) 0 15)).content
      = bHello.content :=
  C10_failed_call_preserves_state bHello bSource 12 0 10 0 15 (by decide) (by decide)
